import Mathlib

/-!
Shallow embedding of src/code/rate-limiter.py.

The file models the two rate-limiting engines of the repository,
InMemoryTokenBucket and InMemoryLeakyBucket, as explicit state-passing
functions over rational numbers.  Python floats are modelled as rationals,
the per-identity dictionaries as functions from String to Option of a
rational, and the wall clock reading time.time() inside allow_request as
an explicit argument now.  Each allow_request returns the boolean result
together with the updated object state, mirroring the in-place mutation
of the Python code.
-/

/-- State of the Python class InMemoryTokenBucket: the two configuration
fields set in the constructor and the two per-identity dictionaries,
self.tokens and self.timestamps. -/
structure InMemoryTokenBucket where
  capacity : ℚ
  refill_rate : ℚ
  tokens : String → Option ℚ
  timestamps : String → Option ℚ

/-- The body of InMemoryTokenBucket.__init__: store capacity and
refill_rate, start with empty dictionaries. -/
def mkTokenBucket (capacity refill_rate : ℚ) : InMemoryTokenBucket :=
  { capacity := capacity
    refill_rate := refill_rate
    tokens := fun _ => none
    timestamps := fun _ => none }

/-- InMemoryTokenBucket.allow_request.  The dictionary reads
self.tokens.get(identifier, self.capacity) and
self.timestamps.get(identifier, now) become getD, the wall clock value is
the explicit argument now, and the two dictionary writes on the success
path become pointwise function updates in the returned state. -/
def InMemoryTokenBucket.allow_request (b : InMemoryTokenBucket)
    (identifier : String) (now : ℚ) : Bool × InMemoryTokenBucket :=
  let tokens := (b.tokens identifier).getD b.capacity
  let last_refill := (b.timestamps identifier).getD now
  let new_tokens := min b.capacity (tokens + (now - last_refill) * b.refill_rate)
  if new_tokens < 1 then
    (false, b)
  else
    (true,
      { b with
        tokens := fun i => if i = identifier then some (new_tokens - 1) else b.tokens i
        timestamps := fun i => if i = identifier then some now else b.timestamps i })

/-- State of the Python class InMemoryLeakyBucket: the two configuration
fields set in the constructor and the two per-identity dictionaries,
self.water_level and self.last_checked. -/
structure InMemoryLeakyBucket where
  capacity : ℚ
  leak_rate : ℚ
  water_level : String → Option ℚ
  last_checked : String → Option ℚ

/-- The body of InMemoryLeakyBucket.__init__: store capacity and
leak_rate, start with empty dictionaries. -/
def mkLeakyBucket (capacity leak_rate : ℚ) : InMemoryLeakyBucket :=
  { capacity := capacity
    leak_rate := leak_rate
    water_level := fun _ => none
    last_checked := fun _ => none }

/-- InMemoryLeakyBucket.allow_request.  The dictionary reads
self.water_level.get(identifier, 0) and
self.last_checked.get(identifier, now) become getD; the Python
reassignment level = max(0, level - leaked) is the shadowing let; the two
dictionary writes on the success path become pointwise function
updates. -/
def InMemoryLeakyBucket.allow_request (b : InMemoryLeakyBucket)
    (identifier : String) (now : ℚ) : Bool × InMemoryLeakyBucket :=
  let level := (b.water_level identifier).getD 0
  let last_time := (b.last_checked identifier).getD now
  let leaked := (now - last_time) * b.leak_rate
  let level := max 0 (level - leaked)
  if level + 1 > b.capacity then
    (false, b)
  else
    (true,
      { b with
        water_level := fun i => if i = identifier then some (level + 1) else b.water_level i
        last_checked := fun i => if i = identifier then some now else b.last_checked i })

/-- Configuration errors named by the specification. -/
inductive ConfigError where
  | invalidConfiguration

/-- Embedding of InMemoryTokenBucket.__init__ viewed as a potentially
failing constructor: a Python constructor may raise, so the embedding
returns Except, but the body performs no validation of capacity or
refill_rate and only stores its arguments, so it returns ok
unconditionally. -/
def InMemoryTokenBucket.init (capacity refill_rate : ℚ) :
    Except ConfigError InMemoryTokenBucket :=
  .ok (mkTokenBucket capacity refill_rate)

/-- Embedding of InMemoryLeakyBucket.__init__ viewed as a potentially
failing constructor: the body performs no validation of capacity or
leak_rate and only stores its arguments, so it returns ok
unconditionally. -/
def InMemoryLeakyBucket.init (capacity leak_rate : ℚ) :
    Except ConfigError InMemoryLeakyBucket :=
  .ok (mkLeakyBucket capacity leak_rate)

/-- Run a sequence of allow_request calls on the token engine.  Each call
is a pair of an identifier and the wall clock value observed by that
call; the list of boolean results and the final state are returned. -/
def runTB : List (String × ℚ) → InMemoryTokenBucket → List Bool × InMemoryTokenBucket
  | [], b => ([], b)
  | c :: rest, b =>
    let p := b.allow_request c.1 c.2
    let q := runTB rest p.2
    (p.1 :: q.1, q.2)

/-- Run a sequence of allow_request calls on the leaky engine. -/
def runLB : List (String × ℚ) → InMemoryLeakyBucket → List Bool × InMemoryLeakyBucket
  | [], b => ([], b)
  | c :: rest, b =>
    let p := b.allow_request c.1 c.2
    let q := runLB rest p.2
    (p.1 :: q.1, q.2)

/-- Bounds predicate for the token engine: every stored token count lies
between 0 and the capacity. -/
def TBbounded (b : InMemoryTokenBucket) : Prop :=
  ∀ i q, b.tokens i = some q → 0 ≤ q ∧ q ≤ b.capacity

/-- Bounds predicate for the leaky engine: every stored water level lies
between 0 and the capacity. -/
def LBbounded (b : InMemoryLeakyBucket) : Prop :=
  ∀ i q, b.water_level i = some q → 0 ≤ q ∧ q ≤ b.capacity

/-! ### Generic single-call lemmas -/

/-- A token-engine call whose computed available amount is below 1 returns
false and leaves the object state untouched. -/
theorem tb_reject_eq (b : InMemoryTokenBucket) (identifier : String) (now : ℚ)
    (h : min b.capacity (((b.tokens identifier).getD b.capacity) +
        (now - (b.timestamps identifier).getD now) * b.refill_rate) < 1) :
    b.allow_request identifier now = (false, b) := by
  simp only [InMemoryTokenBucket.allow_request]
  rw [if_pos h]

/-- A leaky-engine call whose drained level plus one exceeds the capacity
returns false and leaves the object state untouched. -/
theorem lb_reject_eq (b : InMemoryLeakyBucket) (identifier : String) (now : ℚ)
    (h : max 0 (((b.water_level identifier).getD 0) -
        (now - (b.last_checked identifier).getD now) * b.leak_rate) + 1 > b.capacity) :
    b.allow_request identifier now = (false, b) := by
  simp only [InMemoryLeakyBucket.allow_request]
  rw [if_pos h]

/-- Token-engine call with zero elapsed time and at least one available
token: returns true, decrements the stored count, stores now. -/
theorem tb_zero_elapsed_accept (b : InMemoryTokenBucket) (identifier : String) (t q : ℚ)
    (hk : (b.tokens identifier).getD b.capacity = q)
    (ht : (b.timestamps identifier).getD t = t)
    (h1 : (1 : ℚ) ≤ q) (hcap : q ≤ b.capacity) :
    b.allow_request identifier t =
      (true,
        { b with
          tokens := fun i => if i = identifier then some (q - 1) else b.tokens i
          timestamps := fun i => if i = identifier then some t else b.timestamps i }) := by
  simp only [InMemoryTokenBucket.allow_request, hk, ht]
  rw [sub_self, zero_mul, add_zero, min_eq_right hcap, if_neg (not_lt.mpr h1)]

/-- Token-engine call with zero elapsed time and zero stored tokens:
returns false and leaves the state untouched. -/
theorem tb_zero_elapsed_reject (b : InMemoryTokenBucket) (identifier : String) (t : ℚ)
    (hk : (b.tokens identifier).getD b.capacity = 0)
    (ht : (b.timestamps identifier).getD t = t) :
    b.allow_request identifier t = (false, b) := by
  simp only [InMemoryTokenBucket.allow_request, hk, ht]
  rw [sub_self, zero_mul, add_zero]
  rw [if_pos (lt_of_le_of_lt (min_le_right b.capacity 0) one_pos)]

/-- Leaky-engine call with zero elapsed time and room for one more unit:
returns true, increments the stored level, stores now. -/
theorem lb_zero_elapsed_accept (b : InMemoryLeakyBucket) (identifier : String) (t q : ℚ)
    (hk : (b.water_level identifier).getD 0 = q)
    (ht : (b.last_checked identifier).getD t = t)
    (h0 : (0 : ℚ) ≤ q) (hcap : q + 1 ≤ b.capacity) :
    b.allow_request identifier t =
      (true,
        { b with
          water_level := fun i => if i = identifier then some (q + 1) else b.water_level i
          last_checked := fun i => if i = identifier then some t else b.last_checked i }) := by
  simp only [InMemoryLeakyBucket.allow_request, hk, ht]
  rw [sub_self, zero_mul, sub_zero, max_eq_right h0, if_neg (not_lt.mpr hcap)]

/-- Leaky-engine call with zero elapsed time and a level already within
one unit of capacity: returns false and leaves the state untouched. -/
theorem lb_zero_elapsed_reject (b : InMemoryLeakyBucket) (identifier : String) (t q : ℚ)
    (hk : (b.water_level identifier).getD 0 = q)
    (ht : (b.last_checked identifier).getD t = t)
    (h0 : (0 : ℚ) ≤ q) (hcap : b.capacity < q + 1) :
    b.allow_request identifier t = (false, b) := by
  simp only [InMemoryLeakyBucket.allow_request, hk, ht]
  rw [sub_self, zero_mul, sub_zero, max_eq_right h0, if_pos hcap]

/-! ### Run-level lemmas -/

/-- Splitting a run of the token engine at a list append. -/
theorem runTB_append (l1 l2 : List (String × ℚ)) :
    ∀ b : InMemoryTokenBucket,
      runTB (l1 ++ l2) b =
        ((runTB l1 b).1 ++ (runTB l2 (runTB l1 b).2).1, (runTB l2 (runTB l1 b).2).2) := by
  induction l1 with
  | nil => intro b; simp [runTB]
  | cons c rest ih => intro b; simp [runTB, ih]

/-- Splitting a run of the leaky engine at a list append. -/
theorem runLB_append (l1 l2 : List (String × ℚ)) :
    ∀ b : InMemoryLeakyBucket,
      runLB (l1 ++ l2) b =
        ((runLB l1 b).1 ++ (runLB l2 (runLB l1 b).2).1, (runLB l2 (runLB l1 b).2).2) := by
  induction l1 with
  | nil => intro b; simp [runLB]
  | cons c rest ih => intro b; simp [runLB, ih]

/-- Zero-elapsed-time run of the token engine while tokens remain: n calls
at the same wall clock value t are all accepted as long as n does not
exceed the number k of available tokens, and the run ends with k - n
available tokens at timestamp t. -/
theorem tb_run_accepts (identifier : String) (t : ℚ) :
    ∀ (n : ℕ) (b : InMemoryTokenBucket) (k : ℕ), n ≤ k →
      (b.tokens identifier).getD b.capacity = (k : ℚ) →
      (b.timestamps identifier).getD t = t →
      (k : ℚ) ≤ b.capacity →
      (runTB (List.replicate n (identifier, t)) b).1 = List.replicate n true ∧
      (runTB (List.replicate n (identifier, t)) b).2.capacity = b.capacity ∧
      (runTB (List.replicate n (identifier, t)) b).2.refill_rate = b.refill_rate ∧
      ((runTB (List.replicate n (identifier, t)) b).2.tokens identifier).getD
          (runTB (List.replicate n (identifier, t)) b).2.capacity = ((k - n : ℕ) : ℚ) ∧
      ((runTB (List.replicate n (identifier, t)) b).2.timestamps identifier).getD t = t := by
  intro n
  induction n with
  | zero =>
    intro b k _ hk ht _
    refine ⟨rfl, rfl, rfl, ?_, ht⟩
    simpa [runTB] using hk
  | succ n ih =>
    intro b k hnk hk ht hcap
    have h1 : 1 ≤ k := le_trans (Nat.succ_le_succ (Nat.zero_le n)) hnk
    have h1q : (1 : ℚ) ≤ (k : ℚ) := by exact_mod_cast h1
    have hstep := tb_zero_elapsed_accept b identifier t (k : ℚ) hk ht h1q hcap
    rw [List.replicate_succ]
    simp only [runTB, hstep]
    set b2 : InMemoryTokenBucket :=
      { b with
        tokens := fun i => if i = identifier then some ((k : ℚ) - 1) else b.tokens i
        timestamps := fun i => if i = identifier then some t else b.timestamps i } with hb2
    have hk2 : (b2.tokens identifier).getD b2.capacity = ((k - 1 : ℕ) : ℚ) := by
      simp [hb2, Nat.cast_sub h1]
    have ht2 : (b2.timestamps identifier).getD t = t := by simp [hb2]
    have hcap2 : ((k - 1 : ℕ) : ℚ) ≤ b2.capacity := by
      have : ((k - 1 : ℕ) : ℚ) ≤ (k : ℚ) := by exact_mod_cast Nat.sub_le k 1
      exact le_trans this hcap
    have hnk2 : n ≤ k - 1 := Nat.le_sub_one_of_lt (Nat.lt_of_succ_le hnk)
    obtain ⟨hres, hcapEq, hrate, htok, hts⟩ := ih b2 (k - 1) hnk2 hk2 ht2 hcap2
    refine ⟨by rw [hres, List.replicate_succ], by rw [hcapEq], by rw [hrate], ?_, hts⟩
    rw [htok]
    congr 1
    omega

/-- Zero-elapsed-time run of the leaky engine while room remains: n calls
at the same wall clock value t are all accepted as long as the level k
plus n does not exceed the capacity, and the run ends at level k + n with
last checked time t. -/
theorem lb_run_accepts (identifier : String) (t : ℚ) :
    ∀ (n : ℕ) (b : InMemoryLeakyBucket) (k : ℕ),
      ((k + n : ℕ) : ℚ) ≤ b.capacity →
      (b.water_level identifier).getD 0 = (k : ℚ) →
      (b.last_checked identifier).getD t = t →
      (runLB (List.replicate n (identifier, t)) b).1 = List.replicate n true ∧
      (runLB (List.replicate n (identifier, t)) b).2.capacity = b.capacity ∧
      (runLB (List.replicate n (identifier, t)) b).2.leak_rate = b.leak_rate ∧
      ((runLB (List.replicate n (identifier, t)) b).2.water_level identifier).getD 0
          = ((k + n : ℕ) : ℚ) ∧
      ((runLB (List.replicate n (identifier, t)) b).2.last_checked identifier).getD t = t := by
  intro n
  induction n with
  | zero =>
    intro b k _ hk ht
    refine ⟨rfl, rfl, rfl, ?_, ht⟩
    simpa [runLB] using hk
  | succ n ih =>
    intro b k hcap hk ht
    have h0 : (0 : ℚ) ≤ (k : ℚ) := by exact_mod_cast Nat.zero_le k
    have hroom : (k : ℚ) + 1 ≤ b.capacity := by
      have : ((k + 1 : ℕ) : ℚ) ≤ ((k + (n + 1) : ℕ) : ℚ) := by exact_mod_cast by omega
      calc (k : ℚ) + 1 = ((k + 1 : ℕ) : ℚ) := by push_cast; ring
        _ ≤ ((k + (n + 1) : ℕ) : ℚ) := this
        _ ≤ b.capacity := hcap
    have hstep := lb_zero_elapsed_accept b identifier t (k : ℚ) hk ht h0 hroom
    rw [List.replicate_succ]
    simp only [runLB, hstep]
    set b2 : InMemoryLeakyBucket :=
      { b with
        water_level := fun i => if i = identifier then some ((k : ℚ) + 1) else b.water_level i
        last_checked := fun i => if i = identifier then some t else b.last_checked i } with hb2
    have hk2 : (b2.water_level identifier).getD 0 = ((k + 1 : ℕ) : ℚ) := by
      simp [hb2]
    have ht2 : (b2.last_checked identifier).getD t = t := by simp [hb2]
    have hcap2 : ((k + 1 + n : ℕ) : ℚ) ≤ b2.capacity := by
      have : ((k + 1 + n : ℕ) : ℚ) = ((k + (n + 1) : ℕ) : ℚ) := by congr 1; omega
      rw [this]
      exact hcap
    obtain ⟨hres, hcapEq, hrate, hlev, hts⟩ := ih b2 (k + 1) hcap2 hk2 ht2
    refine ⟨by rw [hres, List.replicate_succ], by rw [hcapEq], by rw [hrate], ?_, hts⟩
    rw [hlev]
    congr 1
    omega

/-- With capacity below 1 the token engine rejects any single call from
any state, leaving the state untouched. -/
theorem tb_cap_lt_one_reject (b : InMemoryTokenBucket) (identifier : String) (now : ℚ)
    (hb : b.capacity < 1) :
    b.allow_request identifier now = (false, b) :=
  tb_reject_eq b identifier now
    (lt_of_le_of_lt (min_le_left b.capacity _) hb)

/-- With capacity below 1 the leaky engine rejects any single call from
any state, leaving the state untouched. -/
theorem lb_cap_lt_one_reject (b : InMemoryLeakyBucket) (identifier : String) (now : ℚ)
    (hb : b.capacity < 1) :
    b.allow_request identifier now = (false, b) := by
  refine lb_reject_eq b identifier now ?_
  have h0 : (0 : ℚ) ≤ max 0 (((b.water_level identifier).getD 0) -
      (now - (b.last_checked identifier).getD now) * b.leak_rate) := le_max_left 0 _
  calc b.capacity < 1 := hb
    _ = 0 + 1 := by ring
    _ ≤ max 0 (((b.water_level identifier).getD 0) -
        (now - (b.last_checked identifier).getD now) * b.leak_rate) + 1 :=
      add_le_add_right h0 1

/-- With capacity below 1 every call of any token-engine run is rejected
and the state never changes. -/
theorem tb_run_cap_lt_one (calls : List (String × ℚ)) :
    ∀ b : InMemoryTokenBucket, b.capacity < 1 →
      runTB calls b = (List.replicate calls.length false, b) := by
  induction calls with
  | nil => intro b _; rfl
  | cons c rest ih =>
    intro b hb
    simp [runTB, tb_cap_lt_one_reject b c.1 c.2 hb, ih b hb, List.replicate_succ]

/-- With capacity below 1 every call of any leaky-engine run is rejected
and the state never changes. -/
theorem lb_run_cap_lt_one (calls : List (String × ℚ)) :
    ∀ b : InMemoryLeakyBucket, b.capacity < 1 →
      runLB calls b = (List.replicate calls.length false, b) := by
  induction calls with
  | nil => intro b _; rfl
  | cons c rest ih =>
    intro b hb
    simp [runLB, lb_cap_lt_one_reject b c.1 c.2 hb, ih b hb, List.replicate_succ]

/-- One token-engine call preserves the bounds predicate, for any
identifier and any wall clock value, including one before the stored
timestamp. -/
theorem tb_step_bounded (b : InMemoryTokenBucket) (identifier : String) (now : ℚ)
    (h : TBbounded b) : TBbounded (b.allow_request identifier now).2 := by
  simp only [InMemoryTokenBucket.allow_request]
  split
  · exact h
  · rename_i hc
    intro i q hq
    simp only at hq
    by_cases hi : i = identifier
    · rw [if_pos hi] at hq
      have hval := Option.some.inj hq
      have hub : min b.capacity (((b.tokens identifier).getD b.capacity) +
          (now - (b.timestamps identifier).getD now) * b.refill_rate) ≤ b.capacity :=
        min_le_left _ _
      have hlb : (1 : ℚ) ≤ min b.capacity (((b.tokens identifier).getD b.capacity) +
          (now - (b.timestamps identifier).getD now) * b.refill_rate) := not_lt.mp hc
      constructor
      · rw [← hval]; linarith
      · rw [← hval]
        simp only
        linarith
    · rw [if_neg hi] at hq
      exact h i q hq

/-- One leaky-engine call preserves the bounds predicate, for any
identifier and any wall clock value, including one before the stored
timestamp. -/
theorem lb_step_bounded (b : InMemoryLeakyBucket) (identifier : String) (now : ℚ)
    (h : LBbounded b) : LBbounded (b.allow_request identifier now).2 := by
  simp only [InMemoryLeakyBucket.allow_request]
  split
  · exact h
  · rename_i hc
    intro i q hq
    simp only at hq
    by_cases hi : i = identifier
    · rw [if_pos hi] at hq
      have hval := Option.some.inj hq
      have h0 : (0 : ℚ) ≤ max 0 (((b.water_level identifier).getD 0) -
          (now - (b.last_checked identifier).getD now) * b.leak_rate) := le_max_left 0 _
      have hub : max 0 (((b.water_level identifier).getD 0) -
          (now - (b.last_checked identifier).getD now) * b.leak_rate) + 1 ≤ b.capacity :=
        not_lt.mp hc
      constructor
      · rw [← hval]; linarith
      · rw [← hval]
        simp only
        linarith
    · rw [if_neg hi] at hq
      exact h i q hq

/-- Any token-engine run preserves the bounds predicate. -/
theorem tb_run_bounded (calls : List (String × ℚ)) :
    ∀ b : InMemoryTokenBucket, TBbounded b → TBbounded (runTB calls b).2 := by
  induction calls with
  | nil => intro b h; exact h
  | cons c rest ih =>
    intro b h
    exact ih _ (tb_step_bounded b c.1 c.2 h)

/-- Any leaky-engine run preserves the bounds predicate. -/
theorem lb_run_bounded (calls : List (String × ℚ)) :
    ∀ b : InMemoryLeakyBucket, LBbounded b → LBbounded (runLB calls b).2 := by
  induction calls with
  | nil => intro b h; exact h
  | cons c rest ih =>
    intro b h
    exact ih _ (lb_step_bounded b c.1 c.2 h)

/-! ### Concrete states used by individual claims -/

/-- Leaky-bucket state at full level: capacity 5, leak rate 1, identity u
at water level 5, last checked at time 0. -/
def lb_full : InMemoryLeakyBucket :=
  { capacity := 5
    leak_rate := 1
    water_level := fun i => if i = "u" then some 5 else none
    last_checked := fun i => if i = "u" then some 0 else none }

/-- Token-bucket state with a stored timestamp later than the next
observed wall clock value: capacity 5, refill rate 1, identity u with 2
stored tokens last refilled at time 10. -/
def tb_skew : InMemoryTokenBucket :=
  { capacity := 5
    refill_rate := 1
    tokens := fun i => if i = "u" then some 2 else none
    timestamps := fun i => if i = "u" then some 10 else none }

/-- Leaky-bucket state with a stored timestamp later than the next
observed wall clock value: capacity 5, leak rate 1, identity u at water
level 3 last checked at time 10. -/
def lb_skew : InMemoryLeakyBucket :=
  { capacity := 5
    leak_rate := 1
    water_level := fun i => if i = "u" then some 3 else none
    last_checked := fun i => if i = "u" then some 10 else none }

/-- Token-bucket state with zero stored tokens: capacity 5, refill rate
1, identity u with 0 tokens last refilled at time 0. -/
def tb_empty : InMemoryTokenBucket :=
  { capacity := 5
    refill_rate := 1
    tokens := fun i => if i = "u" then some 0 else none
    timestamps := fun i => if i = "u" then some 0 else none }

/-! ### Claims -/

/-- C1: Burst admission.  For every positive integer capacity C, a fresh
identity, and C + 1 calls made with no elapsed time, both engines accept
the first C calls and reject the last one, for any refill or leak
rate. -/
theorem claim_C1_burst_admission (C : ℕ) (hC : 1 ≤ C) (identifier : String) (t r s : ℚ) :
    (runTB (List.replicate (C + 1) (identifier, t)) (mkTokenBucket (C : ℚ) r)).1
      = List.replicate C true ++ [false] ∧
    (runLB (List.replicate (C + 1) (identifier, t)) (mkLeakyBucket (C : ℚ) s)).1
      = List.replicate C true ++ [false] := by
  have hsplit : ∀ a : String × ℚ, List.replicate (C + 1) a = List.replicate C a ++ [a] := by
    intro a
    rw [List.replicate_succ']
  constructor
  · rw [hsplit, runTB_append]
    obtain ⟨hres, hcapEq, hrate, htok, hts⟩ :=
      tb_run_accepts identifier t C (mkTokenBucket (C : ℚ) r) C le_rfl rfl rfl le_rfl
    set b1 := (runTB (List.replicate C (identifier, t)) (mkTokenBucket (C : ℚ) r)).2 with hb1
    have htok0 : (b1.tokens identifier).getD b1.capacity = 0 := by
      rw [htok]
      norm_num
    have hfin := tb_zero_elapsed_reject b1 identifier t htok0 hts
    rw [hres]
    simp [runTB, hfin]
  · rw [hsplit, runLB_append]
    have hk0 : ((mkLeakyBucket (C : ℚ) s).water_level identifier).getD 0 = ((0 : ℕ) : ℚ) := by
      norm_num [mkLeakyBucket]
    have hcap0 : ((0 + C : ℕ) : ℚ) ≤ (mkLeakyBucket (C : ℚ) s).capacity := by
      push_cast
      norm_num [mkLeakyBucket]
    obtain ⟨hres, hcapEq, hrate, hlev, hts⟩ :=
      lb_run_accepts identifier t C (mkLeakyBucket (C : ℚ) s) 0 hcap0 hk0 rfl
    set b1 := (runLB (List.replicate C (identifier, t)) (mkLeakyBucket (C : ℚ) s)).2 with hb1
    have h0 : (0 : ℚ) ≤ ((0 + C : ℕ) : ℚ) := by positivity
    have hover : b1.capacity < ((0 + C : ℕ) : ℚ) + 1 := by
      rw [hcapEq]
      show ((C : ℚ)) < ((0 + C : ℕ) : ℚ) + 1
      push_cast
      linarith
    have hfin := lb_zero_elapsed_reject b1 identifier t ((0 + C : ℕ) : ℚ) hlev hts h0 hover
    rw [hres]
    simp [runLB, hfin]

/-- C1 witness at capacity 3, identity u, time 0, both rates 1. -/
theorem claim_C1_burst_admission_witness :
    1 ≤ 3 ∧
    ((runTB (List.replicate (3 + 1) ("u", 0)) (mkTokenBucket ((3 : ℕ) : ℚ) 1)).1
        = List.replicate 3 true ++ [false] ∧
     (runLB (List.replicate (3 + 1) ("u", 0)) (mkLeakyBucket ((3 : ℕ) : ℚ) 1)).1
        = List.replicate 3 true ++ [false]) :=
  ⟨by norm_num, claim_C1_burst_admission 3 (by norm_num) "u" 0 1 1⟩

/-- C2: Bounds invariant.  Starting from a fresh engine with any
configuration, after any sequence of calls with arbitrary wall clock
values (so arbitrary, possibly negative, elapsed times), every stored
token count lies in [0, capacity] and every stored water level lies in
[0, capacity].  Every intermediate state of a run is the final state of a
prefix of the call list, so the statement over all call lists covers
every stored value ever produced. -/
theorem claim_C2_bounds_invariant (c r s : ℚ) (calls : List (String × ℚ)) :
    TBbounded (runTB calls (mkTokenBucket c r)).2 ∧
    LBbounded (runLB calls (mkLeakyBucket c s)).2 := by
  constructor
  · refine tb_run_bounded calls _ ?_
    intro i q hq
    simp [mkTokenBucket] at hq
  · refine lb_run_bounded calls _ ?_
    intro i q hq
    simp [mkLeakyBucket] at hq

/-- C3 counterexample: in the state lb_full a call at time 1/2 computes
the drained level 9/2 and is rejected, but nothing is persisted: the
stored water level stays 5 (not the drained 9/2) and the stored last
checked time stays 0 (not 1/2).  This refutes the claim that on
rejection the drained level and the current time are stored. -/
theorem claim_C3_counterexample :
    (lb_full.allow_request "u" (1/2)).1 = false ∧
    max 0 (((lb_full.water_level "u").getD 0) -
        ((1/2 : ℚ) - (lb_full.last_checked "u").getD (1/2)) * lb_full.leak_rate) = 9/2 ∧
    (lb_full.allow_request "u" (1/2)).2.water_level "u" = some 5 ∧
    (lb_full.allow_request "u" (1/2)).2.water_level "u" ≠ some (9/2) ∧
    (lb_full.allow_request "u" (1/2)).2.last_checked "u" = some 0 ∧
    (lb_full.allow_request "u" (1/2)).2.last_checked "u" ≠ some (1/2) := by
  norm_num [InMemoryLeakyBucket.allow_request, lb_full, max_def]

/-- C3 amended: when the leaky engine rejects a call (drained level plus
one exceeds the capacity), the call stores nothing: the water level and
the last checked time of every identity are left exactly as they were,
just as in the token engine. -/
theorem claim_C3_leaky_reject_frame (b : InMemoryLeakyBucket) (identifier : String) (now : ℚ)
    (h : max 0 (((b.water_level identifier).getD 0) -
        (now - (b.last_checked identifier).getD now) * b.leak_rate) + 1 > b.capacity) :
    (b.allow_request identifier now).1 = false ∧ (b.allow_request identifier now).2 = b := by
  rw [lb_reject_eq b identifier now h]
  exact ⟨rfl, rfl⟩

/-- C3 amended witness at the state lb_full and time 1/2. -/
theorem claim_C3_leaky_reject_frame_witness :
    (max 0 (((lb_full.water_level "u").getD 0) -
        ((1/2 : ℚ) - (lb_full.last_checked "u").getD (1/2)) * lb_full.leak_rate) + 1
      > lb_full.capacity) ∧
    ((lb_full.allow_request "u" (1/2)).1 = false ∧
     (lb_full.allow_request "u" (1/2)).2 = lb_full) :=
  ⟨by norm_num [lb_full, max_def],
   claim_C3_leaky_reject_frame lb_full "u" (1/2) (by norm_num [lb_full, max_def])⟩

/-- C4: the code has no clamp for a wall clock value earlier than the
stored timestamp.  In the state tb_skew (2 stored tokens at time 10) a
call at time 5 computes the available amount -3 and is rejected, while
the same call at time 10 (zero elapsed time) is accepted; in the state
lb_skew (level 3 at time 10) a call at time 5 computes the drained level
8, above the stored 3, and is rejected, while the same call at time 10 is
accepted.  This contradicts the claimed clock monotonicity guard. -/
theorem claim_C4_clock_guard_divergence :
    (tb_skew.allow_request "u" 5).1 = false ∧
    (tb_skew.allow_request "u" 10).1 = true ∧
    min tb_skew.capacity (((tb_skew.tokens "u").getD tb_skew.capacity) +
        ((5 : ℚ) - (tb_skew.timestamps "u").getD 5) * tb_skew.refill_rate) = -3 ∧
    (lb_skew.allow_request "u" 5).1 = false ∧
    (lb_skew.allow_request "u" 10).1 = true ∧
    max 0 (((lb_skew.water_level "u").getD 0) -
        ((5 : ℚ) - (lb_skew.last_checked "u").getD 5) * lb_skew.leak_rate) = 8 := by
  norm_num [InMemoryTokenBucket.allow_request, InMemoryLeakyBucket.allow_request,
    tb_skew, lb_skew, min_def, max_def]

/-- C5: Token-bucket rejection frame.  Whenever the token engine rejects
a call (the computed available amount is below 1), all stored state is
left untouched: the token counts, the timestamps and the configuration
are exactly those of the state before the call. -/
theorem claim_C5_token_reject_frame (b : InMemoryTokenBucket) (identifier : String) (now : ℚ)
    (h : min b.capacity (((b.tokens identifier).getD b.capacity) +
        (now - (b.timestamps identifier).getD now) * b.refill_rate) < 1) :
    (b.allow_request identifier now).1 = false ∧ (b.allow_request identifier now).2 = b := by
  rw [tb_reject_eq b identifier now h]
  exact ⟨rfl, rfl⟩

/-- C5 witness at the state tb_empty and time 0. -/
theorem claim_C5_token_reject_frame_witness :
    (min tb_empty.capacity (((tb_empty.tokens "u").getD tb_empty.capacity) +
        ((0 : ℚ) - (tb_empty.timestamps "u").getD 0) * tb_empty.refill_rate) < 1) ∧
    ((tb_empty.allow_request "u" 0).1 = false ∧
     (tb_empty.allow_request "u" 0).2 = tb_empty) :=
  ⟨by norm_num [tb_empty, min_def],
   claim_C5_token_reject_frame tb_empty "u" 0 (by norm_num [tb_empty, min_def])⟩

/-- C6: Token refill recovery.  Capacity 5, refill rate 1: five calls at
time 0 drain the fresh bucket, a call at time 1 is accepted again, and a
second call at time 1 is rejected. -/
theorem claim_C6_token_refill_recovery :
    (runTB [("u", 0), ("u", 0), ("u", 0), ("u", 0), ("u", 0), ("u", 1), ("u", 1)]
      (mkTokenBucket 5 1)).1 = [true, true, true, true, true, true, false] := by
  norm_num [runTB, InMemoryTokenBucket.allow_request, mkTokenBucket, min_def]

/-- C7: Leaky drain recovery.  Capacity 5, leak rate 1: five calls at
time 0 fill the fresh bucket, a call at time 1 is accepted after one unit
has drained, and a second call at time 1 is rejected. -/
theorem claim_C7_leaky_drain_recovery :
    (runLB [("u", 0), ("u", 0), ("u", 0), ("u", 0), ("u", 0), ("u", 1), ("u", 1)]
      (mkLeakyBucket 5 1)).1 = [true, true, true, true, true, true, false] := by
  norm_num [runLB, InMemoryLeakyBucket.allow_request, mkLeakyBucket, max_def]

/-- C8 counterexample: constructing either engine with non-positive
capacity or rate succeeds and never produces an InvalidConfiguration
error, because neither constructor validates its arguments. -/
theorem claim_C8_counterexample :
    InMemoryTokenBucket.init 0 1 = Except.ok (mkTokenBucket 0 1) ∧
    InMemoryLeakyBucket.init 0 1 = Except.ok (mkLeakyBucket 0 1) ∧
    InMemoryTokenBucket.init (-1) (-2) = Except.ok (mkTokenBucket (-1) (-2)) ∧
    InMemoryLeakyBucket.init (-1) (-2) = Except.ok (mkLeakyBucket (-1) (-2)) :=
  ⟨rfl, rfl, rfl, rfl⟩

/-- C8 amended: construction of either engine never fails, whatever the
capacity and rate, because the constructors perform no validation; and
allow_request is a total function, so no request-time failure exists. -/
theorem claim_C8_construction_total (capacity rate : ℚ) :
    InMemoryTokenBucket.init capacity rate = Except.ok (mkTokenBucket capacity rate) ∧
    InMemoryLeakyBucket.init capacity rate = Except.ok (mkLeakyBucket capacity rate) :=
  ⟨rfl, rfl⟩

/-- C10: a capacity strictly between 0 and 1 rejects every call: for any
positive rates and any sequence of calls with arbitrary identities and
wall clock values, both engines return false on every call. -/
theorem claim_C10_subunit_capacity_rejects (capacity tr lr : ℚ)
    (h0 : 0 < capacity) (h1 : capacity < 1) (ht : 0 < tr) (hl : 0 < lr)
    (calls : List (String × ℚ)) :
    (runTB calls (mkTokenBucket capacity tr)).1 = List.replicate calls.length false ∧
    (runLB calls (mkLeakyBucket capacity lr)).1 = List.replicate calls.length false := by
  constructor
  · rw [tb_run_cap_lt_one calls (mkTokenBucket capacity tr) h1]
  · rw [lb_run_cap_lt_one calls (mkLeakyBucket capacity lr) h1]

/-- C10 witness at capacity 1/2, both rates 1, two calls for two
identities at different times. -/
theorem claim_C10_subunit_capacity_rejects_witness :
    (0 < (1/2 : ℚ)) ∧ ((1/2 : ℚ) < 1) ∧ (0 < (1 : ℚ)) ∧ (0 < (1 : ℚ)) ∧
    ((runTB [("u", 0), ("v", 3)] (mkTokenBucket (1/2) 1)).1
        = List.replicate ([("u", 0), ("v", 3)] : List (String × ℚ)).length false ∧
     (runLB [("u", 0), ("v", 3)] (mkLeakyBucket (1/2) 1)).1
        = List.replicate ([("u", 0), ("v", 3)] : List (String × ℚ)).length false) :=
  ⟨by norm_num, by norm_num, by norm_num, by norm_num,
   claim_C10_subunit_capacity_rejects (1/2) 1 1 (by norm_num) (by norm_num)
     (by norm_num) (by norm_num) [("u", 0), ("v", 3)]⟩
